import Mathlib

/-!
# The LWIP bridge of sing-tun (src/lwip.go)

A shallow embedding of `lwip.go`: the bridge between a packet device (`Tun`)
and the lwIP protocol engine.  Effects are made explicit: each operation
returns the list of calls it performs on its collaborators together with its
Go result.  Collaborators that live outside this file of the repository (the
device, the engine, the handler, the address conversions of the metadata
library) are oracles: functions that say what each call returns.

Conventions
* Go `error` values are `Option GoError`; `none` is `nil`.
* Go `int` is `Int` (64 bit; the values met here, an MTU of type `uint32`
  plus four, never wrap).
* A goroutine started with `go` is returned as a task value, its body is run
  by a separate function.
-/

namespace SingTun

/-! ## Base types -/

/-- One octet of a packet. -/
abbrev Byte := Fin 256

/-- A Go error value: what the code can observe of it is its message,
    `err.Error()`. -/
structure GoError where
  Error : String
deriving DecidableEq, Repr

/-- The value `os.ErrClosed`. -/
def os_ErrClosed : GoError := ⟨"file already closed"⟩

/-- A `context.Context`, identified by a number. -/
structure Context where
  id : Nat
deriving DecidableEq, Repr

/-- The value `context.Background()`. -/
def Context.Background : Context := ⟨0⟩

/-- A non-nil `net.Addr` (`*net.TCPAddr`, `*net.UDPAddr`): IP octets, port and zone. -/
structure NetAddr where
  ip : List Nat
  port : Int
  zone : String
deriving DecidableEq, Repr

/-- A value of the interface type `net.Addr`.  Go gives a nil address two
    forms: the nil interface value, which `== nil` recognises, and a non-nil
    interface value that holds a nil `*net.TCPAddr` or `*net.UDPAddr`, which
    `== nil` does not recognise.  The third form is an actual address. -/
inductive GoAddr where
  | nilInterface
  | nilPointer
  | ptr (a : NetAddr)
deriving DecidableEq, Repr

/-- Whether an address value is nil in either form. -/
def GoAddr.isNil : GoAddr → Bool
  | .ptr _ => false
  | _ => true

/-- The conversion of a `*net.UDPAddr` to `net.Addr`: a nil pointer becomes
    a non-nil interface value holding that nil pointer. -/
def GoAddr.ofPointer : Option NetAddr → GoAddr
  | none => .nilPointer
  | some a => .ptr a

/-- The address behind an address value, nil for both nil forms. -/
def GoAddr.toOption : GoAddr → Option NetAddr
  | .ptr a => some a
  | _ => none

/-- A `netip.AddrPort`, the key type of the UDP flow tracker. -/
structure AddrPort where
  ip : List Nat
  port : Nat
deriving DecidableEq, Repr

/-- The type `M.Socksaddr` of the metadata library. -/
structure Socksaddr where
  Addr : List Nat
  Port : Nat
  Fqdn : String
deriving DecidableEq, Repr

/-- The type `M.Metadata`; the bridge sets `Source` and `Destination` only,
    the other fields keep their zero value and are left out. -/
structure Metadata where
  Source : Socksaddr
  Destination : Socksaddr
deriving DecidableEq, Repr

/-- The functions of the metadata library (`github.com/sagernet/sing`) that
    `lwip.go` calls.  They are not part of this repository and are taken as
    parameters. -/
structure MetadataLib where
  /-- The function `M.SocksaddrFromNet` on the nil interface value (`none`)
      and on an actual address. -/
  SocksaddrFromNet : Option NetAddr → Socksaddr
  /-- The method `Socksaddr.AddrPort`. -/
  AddrPort : Socksaddr → AddrPort
  /-- The method `Socksaddr.UDPAddr`, a `*net.UDPAddr`. -/
  UDPAddr : Socksaddr → Option NetAddr

/-- The call `M.SocksaddrFromNet(a)` on any `net.Addr` value.  The library
    tests `a == nil`, which a nil pointer inside the interface does not
    satisfy, and then reads the fields through the pointer: for that form the
    call ends in a run-time panic (`none`). -/
def MetadataLib.fromNet (lib : MetadataLib) : GoAddr → Option Socksaddr
  | .nilInterface => some (lib.SocksaddrFromNet none)
  | .nilPointer => none
  | .ptr a => some (lib.SocksaddrFromNet (some a))

/-- The part of the buffer library (`github.com/sagernet/sing/common/buf`)
    that depends on its version, which the repository does not pin:
    whether `buf.As(data).ToOwned()` panics when `data` has length zero. -/
structure BufLib where
  emptyPanics : Bool

/-! ## Collaborators -/

/-- What one call `tun.Read(data)` does: either it fails, or it leaves
    `data` in the buffer and reports `n` bytes. -/
inductive ReadResult where
  | ok (data : List Byte) (n : Int)
  | err (e : GoError)
deriving DecidableEq, Repr

/-- The device: `Read i` is the outcome of the `i`-th call of `tun.Read`
    (counted from zero), `Write` the result of `tun.Write`. -/
structure Tun where
  Read : Nat → ReadResult
  Write : List Byte → Int × Option GoError

/-- A TCP connection object handed over by the engine: a `net.Conn` whose
    dynamic type is `lwip.TCPConn`, so that it has `Close` and `Abort`.
    `LocalAddr` and `RemoteAddr` are the `net.Addr` values the accessors
    return, in any of the three forms. -/
structure Conn where
  id : Nat
  LocalAddr : GoAddr
  RemoteAddr : GoAddr
deriving DecidableEq, Repr

/-- A UDP connection object of the engine, `lwip.UDPConn`: `WriteFrom` is an
    oracle for the result of `conn.WriteFrom(bytes, addr)`, `Close` for the
    result of `conn.Close()`. -/
structure UDPConn where
  id : Nat
  LocalAddr : GoAddr
  WriteFrom : List Byte → Option NetAddr → Int × Option GoError
  Close : Option GoError

/-- A `buf.Buffer`: an identity and the bytes `buffer.Bytes()` returns. -/
structure Buffer where
  id : Nat
  bytes : List Byte
deriving DecidableEq, Repr

/-- The argument of the writer factory, an `N.PacketConn`. -/
structure PacketConn where
  id : Nat
deriving DecidableEq, Repr

/-- The application handler: `NewConnection` is an oracle for the result of
    the call; `NewError` has no result and only shows up in traces. -/
structure Handler where
  id : Nat
  NewConnection : Context → Conn → Metadata → Option GoError

/-- The engine instance `lwip.LWIPStack`: `Write i packet` is the result of
    the `i`-th call of `stack.Write` (counted from zero) when it is given
    `packet`; `Close` the result of `stack.Close()`. -/
structure LWIPStack where
  Write : Nat → List Byte → Int × Option GoError
  Close : Option GoError

/-- The UDP flow tracker `udpnat.Service[netip.AddrPort]` as `udpnat.New`
    builds it: it records the timeout and the handler it was created with. -/
structure UdpNatService where
  timeout : Int
  handler : Handler

/-- The function `udpnat.New`. -/
def udpnat_New (timeout : Int) (handler : Handler) : UdpNatService :=
  { timeout := timeout, handler := handler }

/-! ## The bridge -/

/-- The struct `LWIP`. -/
structure LWIP where
  ctx : Context
  tun : Tun
  tunMtu : Nat
  udpTimeout : Int
  handler : Handler
  stack : LWIPStack
  udpNat : UdpNatService

/-- The constructor `NewLWIP`.  `newStack` is what `lwip.NewLWIPStack()`
    returns.  The struct literal of the source names six of the seven
    fields; `udpTimeout` is not among them and keeps the zero value of
    `int64`.  The result pairs the bridge with the returned error. -/
def NewLWIP (newStack : LWIPStack) (ctx : Context) (tun : Tun) (tunMtu : Nat)
    (udpTimeout : Int) (handler : Handler) : LWIP × Option GoError :=
  ({ ctx := ctx
     tun := tun
     tunMtu := tunMtu
     udpTimeout := 0
     handler := handler
     stack := newStack
     udpNat := udpnat_New udpTimeout handler }, none)

/-! ## The ingress pump `loopIn` -/

/-- The calls the pump performs. -/
inductive PumpEvent where
  | tunRead (bufLen : Nat)
  | stackWrite (packet : List Byte)
  | newError (ctx : Context) (e : GoError)
  | bufferRelease
deriving DecidableEq, Repr

/-- How a run of the pump ends: `return` after a read error, `return` after
    the engine reported that it is closed, a run-time panic of a slice
    expression, or still looping when the observation stops. -/
inductive Outcome where
  | readError
  | stackClosed
  | panicked
  | running
deriving DecidableEq, Repr

/-- A run of the pump: the calls in order and how it ended. -/
structure Run where
  trace : List PumpEvent
  outcome : Outcome
deriving DecidableEq, Repr

/-- The Go slice expression `data[lo:hi]` on a slice whose capacity is its
    length: `none` is the run-time panic "slice bounds out of range". -/
def sliceExpr (data : List Byte) (lo hi : Int) : Option (List Byte) :=
  if 0 ≤ lo ∧ lo ≤ hi ∧ hi ≤ (data.length : Int) then
    some ((data.take hi.toNat).drop lo.toNat)
  else
    none

/-- The length of the read buffer: `mtu := int(l.tunMtu)`, plus four when
    `runtime.GOOS == "darwin"`; `buf.StackNewSize(mtu)` has `mtu` free bytes. -/
def LWIP.bufferLen (l : LWIP) (goos : String) : Nat :=
  if goos = "darwin" then l.tunMtu + 4 else l.tunMtu

/-- The contents of the read buffer of length `size` after a read that left
    `data` in it: the buffer keeps its length whatever the device wrote. -/
def bufferAfter (size : Nat) (data : List Byte) : List Byte :=
  (data ++ List.replicate (size - data.length) 0).take size

/-- Lines 71 to 76: `packet = data[4:n]` on darwin, `packet = data[:n]`
    elsewhere. -/
def packetOf (goos : String) (data : List Byte) (n : Int) : Option (List Byte) :=
  if goos = "darwin" then sliceExpr data 4 n else sliceExpr data 0 n

/-- The body of the `for` loop from iteration `i` on, observed for at most
    `fuel` iterations.  The deferred `buffer.Release()` is added by `loopIn`. -/
def LWIP.loopBody (l : LWIP) (goos : String) : Nat → Nat → Run
  | 0, _ => ⟨[], .running⟩
  | fuel + 1, i =>
    match l.tun.Read i with
    | .err _ => ⟨[.tunRead (l.bufferLen goos)], .readError⟩
    | .ok data n =>
      match packetOf goos (bufferAfter (l.bufferLen goos) data) n with
      | none => ⟨[.tunRead (l.bufferLen goos)], .panicked⟩
      | some packet =>
        match (l.stack.Write i packet).2 with
        | none =>
          let r := l.loopBody goos fuel (i + 1)
          ⟨.tunRead (l.bufferLen goos) :: .stackWrite packet :: r.trace, r.outcome⟩
        | some err =>
          if err.Error = "stack closed" then
            ⟨[.tunRead (l.bufferLen goos), .stackWrite packet], .stackClosed⟩
          else
            let r := l.loopBody goos fuel (i + 1)
            ⟨.tunRead (l.bufferLen goos) :: .stackWrite packet
                :: .newError Context.Background err :: r.trace, r.outcome⟩

/-- The method `loopIn`, observed for at most `fuel` iterations: the loop,
    then the deferred `buffer.Release()`, which runs on every exit (return
    or panic) and not while the loop is still running. -/
def LWIP.loopIn (l : LWIP) (goos : String) (fuel : Nat) : Run :=
  let r := l.loopBody goos fuel 0
  match r.outcome with
  | .running => r
  | _ => ⟨r.trace ++ [.bufferRelease], r.outcome⟩

/-! ## Lifecycle: `Start` and `Close` -/

/-- One call of the output function the engine uses to emit a raw packet:
    its Go result and the calls of `tun.Write` it made. -/
structure OutputCall where
  result : Int × Option GoError
  tunWrites : List (List Byte)
deriving DecidableEq, Repr

/-- An output function as registered with `lwip.RegisterOutputFn`. -/
abbrev OutputFn := List Byte → OutputCall

/-- The method value `l.tun.Write` used as output function: it calls the
    device once and returns what the device returns. -/
def Tun.WriteFn (t : Tun) : OutputFn :=
  fun bytes => ⟨t.Write bytes, [bytes]⟩

/-- The function literal of `Close`, lines 90 to 92. -/
def closedOutputFn : OutputFn :=
  fun _ => ⟨(0, some os_ErrClosed), []⟩

/-- The calls `Start` and `Close` make on the engine package and instance. -/
inductive EngineCall where
  | RegisterTCPConnHandler (h : Option LWIP)
  | RegisterUDPConnHandler (h : Option LWIP)
  | RegisterOutputFn (f : OutputFn)
  | goLoopIn (l : LWIP)
  | stackClose

/-- The package-level registrations of the engine library
    (`github.com/eycorsican/go-tun2socks/core`): each `Register` call
    replaces the value registered before. -/
structure Registry where
  tcpConnHandler : Option LWIP
  udpConnHandler : Option LWIP
  outputFn : Option OutputFn
  pumps : List LWIP
  closeRequests : Nat

/-- The registry before anything is registered. -/
def Registry.empty : Registry :=
  { tcpConnHandler := none, udpConnHandler := none, outputFn := none,
    pumps := [], closeRequests := 0 }

/-- The effect of one engine call on the registrations. -/
def Registry.apply (r : Registry) : EngineCall → Registry
  | .RegisterTCPConnHandler h => { r with tcpConnHandler := h }
  | .RegisterUDPConnHandler h => { r with udpConnHandler := h }
  | .RegisterOutputFn f => { r with outputFn := some f }
  | .goLoopIn l => { r with pumps := r.pumps ++ [l] }
  | .stackClose => { r with closeRequests := r.closeRequests + 1 }

/-- The registrations after a list of engine calls, in order. -/
def Registry.run (r : Registry) (calls : List EngineCall) : Registry :=
  calls.foldl Registry.apply r

/-- The method `Start`: the calls in order and the returned error. -/
def LWIP.Start (l : LWIP) : List EngineCall × Option GoError :=
  ([.RegisterTCPConnHandler (some l),
    .RegisterUDPConnHandler (some l),
    .RegisterOutputFn l.tun.WriteFn,
    .goLoopIn l], none)

/-- The method `Close`: the calls in order and the returned error, which is
    the result of `l.stack.Close()`. -/
def LWIP.Close (l : LWIP) : List EngineCall × Option GoError :=
  ([.RegisterTCPConnHandler none,
    .RegisterUDPConnHandler none,
    .RegisterOutputFn closedOutputFn,
    .stackClose], l.stack.Close)

/-! ## The stream acceptor `Handle` -/

/-- The calls the acceptor makes on a connection and on the handler. -/
inductive ConnEvent where
  | Close (conn : Conn)
  | Abort (conn : Conn)
  | NewConnection (handler : Nat) (ctx : Context) (conn : Conn) (metadata : Metadata)
deriving DecidableEq, Repr

/-- The connection a call operates on. -/
def ConnEvent.conn : ConnEvent → Conn
  | .Close c => c
  | .Abort c => c
  | .NewConnection _ _ c _ => c

/-- The goroutine of lines 103 to 111 with the variables it captures. -/
structure AcceptTask where
  conn : Conn
  lAddr : GoAddr
  rAddr : GoAddr
deriving DecidableEq, Repr

/-- A run of the goroutine: its calls, and whether it ended in a run-time
    panic. -/
structure TaskRun where
  calls : List ConnEvent
  panicked : Bool
deriving DecidableEq, Repr

/-- What `Handle` does before it returns: its calls, the goroutine it
    started (if any) and the returned error. -/
structure HandleResult where
  calls : List ConnEvent
  spawned : Option AcceptTask
  ret : Option GoError
deriving DecidableEq, Repr

/-- The method `Handle`.  The guard of line 99 compares the two interface
    values with nil: it holds for the nil interface value only. -/
def LWIP.Handle (_l : LWIP) (conn : Conn) (_target : Option NetAddr) : HandleResult :=
  if conn.LocalAddr = .nilInterface ∨ conn.RemoteAddr = .nilInterface then
    ⟨[.Close conn], none, none⟩
  else
    ⟨[], some ⟨conn, conn.LocalAddr, conn.RemoteAddr⟩, none⟩

/-- The body of the goroutine started by `Handle`: the two conversions in
    the order of lines 105 and 106, each of which may panic, then the call of
    the handler and the `Abort` after a rejection. -/
def LWIP.acceptTask (l : LWIP) (lib : MetadataLib) (t : AcceptTask) : TaskRun :=
  match lib.fromNet t.lAddr with
  | none => ⟨[], true⟩
  | some source =>
    match lib.fromNet t.rAddr with
    | none => ⟨[], true⟩
    | some destination =>
      let metadata : Metadata := { Source := source, Destination := destination }
      match l.handler.NewConnection l.ctx t.conn metadata with
      | some _ => ⟨[.NewConnection l.handler.id l.ctx t.conn metadata, .Abort t.conn], false⟩
      | none => ⟨[.NewConnection l.handler.id l.ctx t.conn metadata], false⟩

/-- Every call that one `Handle(conn, target)` gives rise to: those made
    before it returns, then those of its goroutine. -/
def LWIP.handleCalls (l : LWIP) (lib : MetadataLib) (conn : Conn) : List ConnEvent :=
  let r := l.Handle conn none
  r.calls ++ (match r.spawned with
    | some t => (l.acceptTask lib t).calls
    | none => [])

/-- Whether the goroutine started by `Handle(conn, target)` ends in a
    run-time panic; false when no goroutine is started. -/
def LWIP.handlePanics (l : LWIP) (lib : MetadataLib) (conn : Conn) : Bool :=
  match (l.Handle conn none).spawned with
  | some t => (l.acceptTask lib t).panicked
  | none => false

/-! ## The UDP bridge -/

/-- The type `LWIPUDPBackWriter`. -/
structure LWIPUDPBackWriter where
  conn : UDPConn

/-- The arguments of one call `udpNat.NewPacket(ctx, key, buffer, metadata, init)`;
    `buffer` holds the bytes of the owned buffer. -/
structure NewPacketCall where
  ctx : Context
  key : AddrPort
  buffer : List Byte
  metadata : Metadata
  init : PacketConn → LWIPUDPBackWriter

/-- The calls of the UDP bridge on the tracker, on a UDP connection object
    and on a buffer. -/
inductive UdpEvent where
  | NewPacket (call : NewPacketCall)
  | WriteFrom (conn : Nat) (bytes : List Byte) (addr : Option NetAddr)
  | Release (buffer : Buffer)
  | ConnClose (conn : Nat)

/-- The bytes of `buf.As(data).ToOwned()`: a fresh buffer holding a copy of
    `data`; for zero-length `data` a run-time panic (`none`) in the library
    versions where that case panics. -/
def buf_ToOwned (blib : BufLib) (data : List Byte) : Option (List Byte) :=
  if data = [] ∧ blib.emptyPanics = true then none else some data

/-- The function `common.Error`: it drops the value and keeps the error. -/
def common_Error (r : Int × Option GoError) : Option GoError := r.2

/-- The method `Connect`. -/
def LWIP.Connect (_l : LWIP) (_conn : UDPConn) (_target : Option NetAddr) :
    List UdpEvent × List ConnEvent × Option GoError :=
  ([], [], none)

/-- The method `ReceiveTo`: the calls in order and the returned error, or
    `none` when it ends in a run-time panic.  `addr` is a `*net.UDPAddr`
    (`none` is the nil pointer) and reaches `M.SocksaddrFromNet` as a
    `net.Addr`.  The conversions of lines 121 and 122 and the copy of the data
    come before the call of the tracker, so a panic leaves no call. -/
def LWIP.ReceiveTo (l : LWIP) (lib : MetadataLib) (blib : BufLib) (conn : UDPConn)
    (data : List Byte) (addr : Option NetAddr) : Option (List UdpEvent × Option GoError) :=
  match lib.fromNet conn.LocalAddr with
  | none => none
  | some source =>
    match lib.fromNet (GoAddr.ofPointer addr) with
    | none => none
    | some destination =>
      let upstreamMetadata : Metadata := { Source := source, Destination := destination }
      match buf_ToOwned blib data with
      | none => none
      | some owned =>
        some ([.NewPacket
          { ctx := l.ctx
            key := lib.AddrPort upstreamMetadata.Source
            buffer := owned
            metadata := upstreamMetadata
            init := fun _natConn => ⟨conn⟩ }], none)

/-- The method `LWIPUDPBackWriter.WritePacket`: the write, then the deferred
    release; the result is the error of the write. -/
def LWIPUDPBackWriter.WritePacket (w : LWIPUDPBackWriter) (lib : MetadataLib)
    (buffer : Buffer) (destination : Socksaddr) : List UdpEvent × Option GoError :=
  let r := w.conn.WriteFrom buffer.bytes (lib.UDPAddr destination)
  ([.WriteFrom w.conn.id buffer.bytes (lib.UDPAddr destination), .Release buffer],
    common_Error r)

/-- The method `LWIPUDPBackWriter.Close`. -/
def LWIPUDPBackWriter.Close (w : LWIPUDPBackWriter) : List UdpEvent × Option GoError :=
  ([.ConnClose w.conn.id], w.conn.Close)

/-! ## Observations on traces -/

/-- Whether a call of the UDP bridge is `WriteFrom` on connection `conn`
    with the given bytes and address. -/
def UdpEvent.isWriteFrom (conn : Nat) (bytes : List Byte) (addr : Option NetAddr) :
    UdpEvent → Bool
  | .WriteFrom c b a => decide (c = conn ∧ b = bytes ∧ a = addr)
  | _ => false

/-- Whether a call of the UDP bridge is any `WriteFrom`. -/
def UdpEvent.isAnyWriteFrom : UdpEvent → Bool
  | .WriteFrom _ _ _ => true
  | _ => false

/-- Whether a call of the UDP bridge releases `buffer`. -/
def UdpEvent.isRelease (buffer : Buffer) : UdpEvent → Bool
  | .Release b => decide (b = buffer)
  | _ => false

/-- The flow keys of the tracker calls in a trace. -/
def flowKeys : List UdpEvent → List AddrPort
  | [] => []
  | .NewPacket c :: rest => c.key :: flowKeys rest
  | _ :: rest => flowKeys rest

/-- The flow keys of the tracker calls of one `ReceiveTo`, none after a
    panic. -/
def receivedKeys : Option (List UdpEvent × Option GoError) → List AddrPort
  | some r => flowKeys r.1
  | none => []

/-- The tracker calls in a trace. -/
def trackerCalls : List UdpEvent → Nat
  | [] => 0
  | .NewPacket _ :: rest => trackerCalls rest + 1
  | _ :: rest => trackerCalls rest

/-- The address and port that the metadata library reads from a local
    address that is not a nil pointer. -/
def libraryEndpoint (lib : MetadataLib) (a : GoAddr) : AddrPort :=
  lib.AddrPort (lib.SocksaddrFromNet a.toOption)

/-- Whether a call of the acceptor is a `NewConnection`. -/
def ConnEvent.isNewConnection : ConnEvent → Bool
  | .NewConnection _ _ _ _ => true
  | _ => false

/-- The packets handed to the engine in a trace of the pump, in order. -/
def writesOf : List PumpEvent → List (List Byte)
  | [] => []
  | .stackWrite packet :: rest => packet :: writesOf rest
  | _ :: rest => writesOf rest

/-- The errors reported to the error sink in a trace of the pump, in order. -/
def errorsOf : List PumpEvent → List GoError
  | [] => []
  | .newError _ e :: rest => e :: errorsOf rest
  | _ :: rest => errorsOf rest

/-- The number of device reads in a trace of the pump. -/
def readsOf : List PumpEvent → Nat
  | [] => 0
  | .tunRead _ :: rest => readsOf rest + 1
  | _ :: rest => readsOf rest

/-- The calls of one iteration of the pump that hands `packet` to the engine
    and goes on: the read, the write, and the report of the write error if
    there is one. -/
def LWIP.iterCalls (l : LWIP) (goos : String) (i : Nat) (packet : List Byte) :
    List PumpEvent :=
  .tunRead (l.bufferLen goos) :: .stackWrite packet ::
    (match (l.stack.Write i packet).2 with
      | some e => [.newError Context.Background e]
      | none => [])

/-- The calls of the `d` iterations from iteration `j` on, when iteration `i`
    hands packet `p i` to the engine. -/
def LWIP.callsFrom (l : LWIP) (goos : String) (p : Nat → List Byte) : Nat → Nat → List PumpEvent
  | _, 0 => []
  | j, d + 1 => l.iterCalls goos j (p j) ++ l.callsFrom goos p (j + 1) d

/-! ## Sample values -/

/-- A device whose every read leaves the same three bytes and whose write
    accepts everything. -/
def sampleTun : Tun :=
  { Read := fun _ => .ok [1, 2, 3] 3
    Write := fun bytes => (bytes.length, none) }

/-- A handler that rejects the connections with an odd identity. -/
def sampleHandler : Handler :=
  { id := 7
    NewConnection := fun _ conn _ =>
      if conn.id % 2 = 1 then some ⟨"rejected"⟩ else none }

/-- An engine that accepts every packet. -/
def sampleStack : LWIPStack :=
  { Write := fun _ packet => (packet.length, none)
    Close := some ⟨"close failed"⟩ }

/-- A metadata library that reads addresses field by field. -/
def sampleLib : MetadataLib :=
  { SocksaddrFromNet := fun a =>
      match a with
      | some x => ⟨x.ip, x.port.toNat, ""⟩
      | none => ⟨[], 0, ""⟩
    AddrPort := fun s => ⟨s.Addr, s.Port⟩
    UDPAddr := fun s => some ⟨s.Addr, s.Port, ""⟩ }

/-- A bridge over the sample collaborators with an MTU of 1500. -/
def sampleLWIP : LWIP :=
  (NewLWIP sampleStack ⟨1⟩ sampleTun 1500 300 sampleHandler).1

/-- Two addresses. -/
def addrA : NetAddr := ⟨[10, 0, 0, 1], 1000, ""⟩

/-- The second address. -/
def addrB : NetAddr := ⟨[10, 0, 0, 2], 2000, ""⟩

/-- An engine that rejects every second packet and reports that it is
    closed on the fifth write. -/
def closingStack : LWIPStack :=
  { Write := fun i packet =>
      if i = 4 then (0, some ⟨"stack closed"⟩)
      else if i % 2 = 1 then (0, some ⟨"bad packet"⟩)
      else (packet.length, none)
    Close := none }

/-- An engine that rejects every second packet and never closes. -/
def lossyStack : LWIPStack :=
  { Write := fun i packet =>
      if i % 2 = 1 then (0, some ⟨"bad packet"⟩) else (packet.length, none)
    Close := none }

/-- A device that delivers three packets of five bytes and then fails. -/
def threePacketTun : Tun :=
  { Read := fun i => if i < 3 then .ok [9, 9, 9, 9, Fin.ofNat i] 5 else .err ⟨"device gone"⟩
    Write := fun bytes => (bytes.length, none) }

/-- A device whose first read reports two bytes. -/
def shortReadTun : Tun :=
  { Read := fun _ => .ok [1, 2] 2
    Write := fun bytes => (bytes.length, none) }

/-- A bridge with an MTU of 8 over the given device and engine. -/
def pumpLWIP (tun : Tun) (stack : LWIPStack) : LWIP :=
  (NewLWIP stack ⟨1⟩ tun 8 300 sampleHandler).1

/-- A UDP connection object with the given identity and local address
    whose writes succeed. -/
def sampleUDPConn (id : Nat) (local_addr : GoAddr) : UDPConn :=
  { id := id
    LocalAddr := local_addr
    WriteFrom := fun bytes _ => (bytes.length, none)
    Close := none }

/-! ## The reverse-write adapter -/

/-- C1: `WritePacket` calls `WriteFrom` of the wrapped connection exactly once,
    with the bytes of the buffer and the UDP address of the destination; its
    result is nil when the write succeeds and the error of the write when it
    fails; in both cases it releases the input buffer exactly once, after the
    write. -/
theorem WritePacket_writes_once_and_releases_once (w : LWIPUDPBackWriter)
    (lib : MetadataLib) (buffer : Buffer) (destination : Socksaddr) :
    (w.WritePacket lib buffer destination).1
        = [.WriteFrom w.conn.id buffer.bytes (lib.UDPAddr destination), .Release buffer]
    ∧ (w.WritePacket lib buffer destination).1.countP UdpEvent.isAnyWriteFrom = 1
    ∧ (w.WritePacket lib buffer destination).1.countP
        (UdpEvent.isWriteFrom w.conn.id buffer.bytes (lib.UDPAddr destination)) = 1
    ∧ (w.WritePacket lib buffer destination).1.countP (UdpEvent.isRelease buffer) = 1
    ∧ ((w.conn.WriteFrom buffer.bytes (lib.UDPAddr destination)).2 = none →
        (w.WritePacket lib buffer destination).2 = none)
    ∧ (∀ e, (w.conn.WriteFrom buffer.bytes (lib.UDPAddr destination)).2 = some e →
        (w.WritePacket lib buffer destination).2 = some e) := by
  refine ⟨rfl, ?_, ?_, ?_, ?_, ?_⟩
  · simp [LWIPUDPBackWriter.WritePacket, UdpEvent.isAnyWriteFrom]
  · simp [LWIPUDPBackWriter.WritePacket, UdpEvent.isWriteFrom]
  · simp [LWIPUDPBackWriter.WritePacket, UdpEvent.isRelease]
  · intro h
    simp [LWIPUDPBackWriter.WritePacket, common_Error, h]
  · intro e h
    simp [LWIPUDPBackWriter.WritePacket, common_Error, h]

/-! ## The stream acceptor -/

/-- The calls of `Handle` on a connection with both addresses. -/
lemma handleCalls_of_addresses (l : LWIP) (lib : MetadataLib) (conn : Conn)
    (lAddr rAddr : NetAddr)
    (hl : conn.LocalAddr = .ptr lAddr) (hr : conn.RemoteAddr = .ptr rAddr) :
    l.handleCalls lib conn
      = (l.acceptTask lib ⟨conn, .ptr lAddr, .ptr rAddr⟩).calls := by
  simp [LWIP.handleCalls, LWIP.Handle, hl, hr]

/-- The calls of `Handle` on a connection that passes the guard of line 99
    with a nil pointer as one of its addresses: none, the goroutine panics. -/
lemma handleCalls_of_nilPointer (l : LWIP) (lib : MetadataLib) (conn : Conn)
    (hl : conn.LocalAddr ≠ .nilInterface) (hr : conn.RemoteAddr ≠ .nilInterface)
    (h : conn.LocalAddr = .nilPointer ∨ conn.RemoteAddr = .nilPointer) :
    l.handleCalls lib conn = [] ∧ l.handlePanics lib conn = true := by
  unfold LWIP.handleCalls LWIP.handlePanics LWIP.Handle
  rw [if_neg (by simp [hl, hr])]
  simp only [LWIP.acceptTask, List.nil_append]
  rcases h with h | h
  · simp [h, MetadataLib.fromNet]
  · rw [h]
    cases hc : conn.LocalAddr with
    | nilInterface => exact absurd hc hl
    | nilPointer => simp [MetadataLib.fromNet]
    | ptr a => simp [MetadataLib.fromNet]

/-- The calls of `Handle` on a connection caught by the guard of line 99. -/
lemma handleCalls_of_nilInterface (l : LWIP) (lib : MetadataLib) (conn : Conn)
    (h : conn.LocalAddr = .nilInterface ∨ conn.RemoteAddr = .nilInterface) :
    (∀ target, l.Handle conn target = ⟨[.Close conn], none, none⟩)
    ∧ l.handleCalls lib conn = [.Close conn] ∧ l.handlePanics lib conn = false := by
  have hH : ∀ target, l.Handle conn target = ⟨[.Close conn], none, none⟩ := by
    intro target
    unfold LWIP.Handle
    rw [if_pos h]
  refine ⟨hH, ?_, ?_⟩
  · simp [LWIP.handleCalls, hH]
  · simp [LWIP.handlePanics, hH]

/-- The calls of the goroutine on a connection with both addresses. -/
lemma acceptTask_of_addresses (l : LWIP) (lib : MetadataLib) (conn : Conn)
    (lAddr rAddr : NetAddr) :
    l.acceptTask lib ⟨conn, .ptr lAddr, .ptr rAddr⟩
      = ⟨.NewConnection l.handler.id l.ctx conn
            ⟨lib.SocksaddrFromNet (some lAddr), lib.SocksaddrFromNet (some rAddr)⟩
          :: (if (l.handler.NewConnection l.ctx conn
                ⟨lib.SocksaddrFromNet (some lAddr), lib.SocksaddrFromNet (some rAddr)⟩).isSome
              then [.Abort conn] else []), false⟩ := by
  simp only [LWIP.acceptTask, MetadataLib.fromNet]
  cases l.handler.NewConnection l.ctx conn
    ⟨lib.SocksaddrFromNet (some lAddr), lib.SocksaddrFromNet (some rAddr)⟩ <;> simp

/-- The three shapes of the calls caused by `Handle(conn)`. -/
lemma handleCalls_cases (l : LWIP) (lib : MetadataLib) (conn : Conn) :
    l.handleCalls lib conn = [.Close conn]
    ∨ l.handleCalls lib conn = []
    ∨ ∃ la ra, conn.LocalAddr = .ptr la ∧ conn.RemoteAddr = .ptr ra
        ∧ l.handleCalls lib conn
          = .NewConnection l.handler.id l.ctx conn
              ⟨lib.SocksaddrFromNet (some la), lib.SocksaddrFromNet (some ra)⟩
            :: (if (l.handler.NewConnection l.ctx conn
                  ⟨lib.SocksaddrFromNet (some la), lib.SocksaddrFromNet (some ra)⟩).isSome
                then [.Abort conn] else []) := by
  by_cases hg : conn.LocalAddr = .nilInterface ∨ conn.RemoteAddr = .nilInterface
  · exact Or.inl (handleCalls_of_nilInterface l lib conn hg).2.1
  · have hl : conn.LocalAddr ≠ .nilInterface := fun h => hg (Or.inl h)
    have hr : conn.RemoteAddr ≠ .nilInterface := fun h => hg (Or.inr h)
    cases hcl : conn.LocalAddr with
    | nilInterface => exact absurd hcl hl
    | nilPointer =>
      exact Or.inr (Or.inl (handleCalls_of_nilPointer l lib conn hl hr (Or.inl hcl)).1)
    | ptr la =>
      cases hcr : conn.RemoteAddr with
      | nilInterface => exact absurd hcr hr
      | nilPointer =>
        exact Or.inr (Or.inl (handleCalls_of_nilPointer l lib conn hl hr (Or.inr hcr)).1)
      | ptr ra =>
        refine Or.inr (Or.inr ⟨la, ra, rfl, rfl, ?_⟩)
        rw [handleCalls_of_addresses l lib conn la ra hcl hcr, acceptTask_of_addresses]

/-- Every call caused by `Handle(conn)` operates on `conn`. -/
lemma handleCalls_conn (l : LWIP) (lib : MetadataLib) (conn : Conn) :
    ∀ ev, ev ∈ l.handleCalls lib conn → ev.conn = conn := by
  intro ev hev
  rcases handleCalls_cases l lib conn with h | h | ⟨la, ra, _, _, h⟩
  · rw [h] at hev
    simp at hev
    subst hev
    rfl
  · rw [h] at hev
    simp at hev
  · rw [h] at hev
    cases hn : l.handler.NewConnection l.ctx conn
        ⟨lib.SocksaddrFromNet (some la), lib.SocksaddrFromNet (some ra)⟩ with
    | none =>
      simp [hn] at hev
      subst hev
      rfl
    | some e =>
      simp [hn] at hev
      rcases hev with hev | hev
      · subst hev
        rfl
      · subst hev
        rfl

/-- When `Handle(conn)` leads to `Abort` on `conn`: both addresses are
    present and `NewConnection` returned an error for `conn`. -/
lemma abort_mem_handleCalls (l : LWIP) (lib : MetadataLib) (conn : Conn) :
    ConnEvent.Abort conn ∈ l.handleCalls lib conn ↔
      ∃ la ra, conn.LocalAddr = .ptr la ∧ conn.RemoteAddr = .ptr ra ∧
        (l.handler.NewConnection l.ctx conn
          ⟨lib.SocksaddrFromNet (some la), lib.SocksaddrFromNet (some ra)⟩).isSome = true := by
  constructor
  · intro hab
    rcases handleCalls_cases l lib conn with h | h | ⟨la, ra, hl, hr, h⟩
    · rw [h] at hab
      simp at hab
    · rw [h] at hab
      simp at hab
    · refine ⟨la, ra, hl, hr, ?_⟩
      rw [h] at hab
      cases hn : l.handler.NewConnection l.ctx conn
          ⟨lib.SocksaddrFromNet (some la), lib.SocksaddrFromNet (some ra)⟩ with
      | none => simp [hn] at hab
      | some e => rfl
  · rintro ⟨la, ra, hl, hr, hsome⟩
    rw [handleCalls_of_addresses l lib conn la ra hl hr, acceptTask_of_addresses, hsome]
    simp

/-- C2, as the code has it: for a connection whose local or remote address
    is nil (in either form Go gives a nil address), `Handle` returns nil and
    `NewConnection` is never called.  When the nil address is the nil
    interface value, the form the guard of line 99 tests, the connection is
    closed with the ordinary `Close` and that is the only call: no `Abort`,
    no goroutine. -/
theorem Handle_nil_address_closes (l : LWIP) (lib : MetadataLib) (conn : Conn)
    (target : Option NetAddr)
    (h : conn.LocalAddr.isNil = true ∨ conn.RemoteAddr.isNil = true) :
    (l.Handle conn target).ret = none
    ∧ (∀ ev, ev ∈ l.handleCalls lib conn → ev.isNewConnection = false)
    ∧ (conn.LocalAddr = .nilInterface ∨ conn.RemoteAddr = .nilInterface →
        l.Handle conn target = ⟨[.Close conn], none, none⟩
        ∧ l.handleCalls lib conn = [.Close conn]
        ∧ ConnEvent.Abort conn ∉ l.handleCalls lib conn
        ∧ l.handlePanics lib conn = false) := by
  refine ⟨?_, ?_, ?_⟩
  · unfold LWIP.Handle
    split <;> rfl
  · intro ev hev
    rcases handleCalls_cases l lib conn with hc | hc | ⟨la, ra, hl, hr, _⟩
    · rw [hc] at hev
      simp at hev
      subst hev
      rfl
    · rw [hc] at hev
      simp at hev
    · rw [hl, hr] at h
      simp [GoAddr.isNil] at h
  · intro hg
    obtain ⟨hH, hC, hP⟩ := handleCalls_of_nilInterface l lib conn hg
    refine ⟨hH target, hC, ?_, hP⟩
    simp [hC]

/-- Witness of C2 as amended: a connection whose remote address is the nil
    interface value. -/
theorem Handle_nil_address_closes_witness :
    (sampleLWIP.Handle ⟨1, .ptr addrA, .nilInterface⟩ none).ret = none
    ∧ (∀ ev, ev ∈ sampleLWIP.handleCalls sampleLib ⟨1, .ptr addrA, .nilInterface⟩ →
        ev.isNewConnection = false)
    ∧ sampleLWIP.handleCalls sampleLib ⟨1, .ptr addrA, .nilInterface⟩
        = [.Close ⟨1, .ptr addrA, .nilInterface⟩] :=
  have h := Handle_nil_address_closes sampleLWIP sampleLib ⟨1, .ptr addrA, .nilInterface⟩ none
    (Or.inr rfl)
  ⟨h.1, h.2.1, (h.2.2 (Or.inr rfl)).2.1⟩

/-- C2 as stated fails, in two ways.  A connection whose remote address is
    the nil interface value receives `Close` and no `Abort`.  A connection
    whose remote address is a nil pointer inside a non-nil `net.Addr` passes
    the guard of line 99: it receives neither `Close` nor `Abort`, and the
    goroutine panics at line 106 before it calls the handler. -/
theorem Handle_nil_address_no_abort :
    sampleLWIP.handleCalls sampleLib ⟨1, .ptr addrA, .nilInterface⟩
        = [.Close ⟨1, .ptr addrA, .nilInterface⟩]
    ∧ ¬ (ConnEvent.Abort ⟨1, .ptr addrA, .nilInterface⟩
          ∈ sampleLWIP.handleCalls sampleLib ⟨1, .ptr addrA, .nilInterface⟩)
    ∧ sampleLWIP.Handle ⟨2, .ptr addrA, .nilPointer⟩ none
        = ⟨[], some ⟨⟨2, .ptr addrA, .nilPointer⟩, .ptr addrA, .nilPointer⟩, none⟩
    ∧ sampleLWIP.handleCalls sampleLib ⟨2, .ptr addrA, .nilPointer⟩ = []
    ∧ sampleLWIP.handlePanics sampleLib ⟨2, .ptr addrA, .nilPointer⟩ = true := by
  decide

/-- C3: for a connection with both addresses, `Handle` itself makes no call
    and starts one goroutine; `NewConnection` is called exactly once, with
    the bridge context, this connection and the metadata built from its local
    (source) and remote (destination) address; the connection receives `Abort`
    exactly when `NewConnection` returned an error, and then once, after the
    call.  Every call that handling a connection causes operates on that
    connection; so, in any order `t` of the calls caused by accepting the
    connections `cs`, a connection receives `Abort` only because of the result
    of its own `NewConnection`.  The goroutine does not panic. -/
theorem Handle_dispatches_once_and_aborts_on_error (l : LWIP) (lib : MetadataLib)
    (conn : Conn) (target : Option NetAddr) (lAddr rAddr : NetAddr)
    (hl : conn.LocalAddr = .ptr lAddr) (hr : conn.RemoteAddr = .ptr rAddr) :
    l.Handle conn target = ⟨[], some ⟨conn, .ptr lAddr, .ptr rAddr⟩, none⟩
    ∧ (l.handleCalls lib conn).filter ConnEvent.isNewConnection
        = [.NewConnection l.handler.id l.ctx conn
            ⟨lib.SocksaddrFromNet (some lAddr), lib.SocksaddrFromNet (some rAddr)⟩]
    ∧ (ConnEvent.Abort conn ∈ l.handleCalls lib conn ↔
        (l.handler.NewConnection l.ctx conn
          ⟨lib.SocksaddrFromNet (some lAddr), lib.SocksaddrFromNet (some rAddr)⟩).isSome = true)
    ∧ (l.handleCalls lib conn
        = .NewConnection l.handler.id l.ctx conn
            ⟨lib.SocksaddrFromNet (some lAddr), lib.SocksaddrFromNet (some rAddr)⟩
          :: (if (l.handler.NewConnection l.ctx conn
                ⟨lib.SocksaddrFromNet (some lAddr), lib.SocksaddrFromNet (some rAddr)⟩).isSome
              then [.Abort conn] else []))
    ∧ (∀ ev, ev ∈ l.handleCalls lib conn → ev.conn = conn)
    ∧ (∀ (cs : List Conn) (t : List ConnEvent),
        t.Perm (cs.map (l.handleCalls lib)).flatten →
        (∀ ev, ev ∈ t → ev.conn ∈ cs ∧ ev ∈ l.handleCalls lib ev.conn)
        ∧ (∀ d, ConnEvent.Abort d ∈ t ↔
            d ∈ cs ∧ ∃ la ra, d.LocalAddr = .ptr la ∧ d.RemoteAddr = .ptr ra ∧
              (l.handler.NewConnection l.ctx d
                ⟨lib.SocksaddrFromNet (some la), lib.SocksaddrFromNet (some ra)⟩).isSome
                = true))
    ∧ l.handlePanics lib conn = false := by
  have hcalls := handleCalls_of_addresses l lib conn lAddr rAddr hl hr
  have hshape : l.handleCalls lib conn
        = .NewConnection l.handler.id l.ctx conn
            ⟨lib.SocksaddrFromNet (some lAddr), lib.SocksaddrFromNet (some rAddr)⟩
          :: (if (l.handler.NewConnection l.ctx conn
                ⟨lib.SocksaddrFromNet (some lAddr), lib.SocksaddrFromNet (some rAddr)⟩).isSome
              then [.Abort conn] else []) := by
    rw [hcalls, acceptTask_of_addresses]
  have hH : ∀ tg, l.Handle conn tg = ⟨[], some ⟨conn, .ptr lAddr, .ptr rAddr⟩, none⟩ := by
    intro tg
    simp [LWIP.Handle, hl, hr]
  refine ⟨hH target, ?_, ?_, hshape, handleCalls_conn l lib conn, ?_, ?_⟩
  · rw [hshape]
    cases l.handler.NewConnection l.ctx conn
      ⟨lib.SocksaddrFromNet (some lAddr), lib.SocksaddrFromNet (some rAddr)⟩ <;>
      simp [ConnEvent.isNewConnection]
  · rw [abort_mem_handleCalls]
    constructor
    · rintro ⟨la, ra, h1, h2, h3⟩
      rw [hl] at h1
      rw [hr] at h2
      cases h1
      cases h2
      exact h3
    · intro h
      exact ⟨lAddr, rAddr, hl, hr, h⟩
  · intro cs t ht
    have hmem : ∀ ev, ev ∈ t ↔ ∃ c, c ∈ cs ∧ ev ∈ l.handleCalls lib c := by
      intro ev
      rw [ht.mem_iff]
      simp [List.mem_flatten]
    constructor
    · intro ev hev
      obtain ⟨c, hc, hin⟩ := (hmem ev).1 hev
      have := handleCalls_conn l lib c ev hin
      rw [this]
      exact ⟨hc, hin⟩
    · intro d
      rw [hmem]
      constructor
      · rintro ⟨c, hc, hin⟩
        have hcd : c = d := (handleCalls_conn l lib c _ hin).symm
        subst hcd
        exact ⟨hc, (abort_mem_handleCalls l lib c).1 hin⟩
      · rintro ⟨hd, h⟩
        exact ⟨d, hd, (abort_mem_handleCalls l lib d).2 h⟩
  · simp [LWIP.handlePanics, hH, acceptTask_of_addresses]

/-- Witness of C3: the sample handler rejects connection 1, which has both
    addresses; the calls are one `NewConnection` and then one `Abort`. -/
theorem Handle_dispatches_once_and_aborts_on_error_witness :
    sampleLWIP.handleCalls sampleLib ⟨1, .ptr addrA, .ptr addrB⟩
      = [.NewConnection 7 ⟨1⟩ ⟨1, .ptr addrA, .ptr addrB⟩
            ⟨⟨[10, 0, 0, 1], 1000, ""⟩, ⟨[10, 0, 0, 2], 2000, ""⟩⟩,
         .Abort ⟨1, .ptr addrA, .ptr addrB⟩] :=
  (Handle_dispatches_once_and_aborts_on_error sampleLWIP sampleLib
    ⟨1, .ptr addrA, .ptr addrB⟩ none addrA addrB rfl rfl).2.2.2.1

/-- C8: `Handle` returns nil for every connection, with or without
    addresses and whatever handler the bridge has; `Connect` returns nil for
    every connection and target and makes no call at all. -/
theorem Handle_and_Connect_return_nil (l : LWIP) :
    (∀ (conn : Conn) (target : Option NetAddr), (l.Handle conn target).ret = none)
    ∧ (∀ (conn : UDPConn) (target : Option NetAddr), l.Connect conn target = ([], [], none)) := by
  constructor
  · intro conn target
    unfold LWIP.Handle
    split <;> rfl
  · intro conn target
    rfl

/-! ## The UDP bridge -/

/-- C6, as the code has it: for a datagram whose `addr` is not nil, received
    on a connection whose local address is not a nil pointer, with data of
    non-zero length, `ReceiveTo` calls the tracker exactly once and returns
    nil.  The call carries the bridge context; as flow key the address and
    port that the metadata library reads from the local address of `conn`;
    metadata whose source is the local address of `conn` and whose destination
    is `addr`; a buffer whose bytes are those of `data`; and a factory that,
    for every argument, returns an adapter wrapping `conn`.  The key does not
    depend on `addr` or on the data: a second such call on a connection with
    the same local address has the same key, whatever its destination, and
    the keys of two calls differ exactly when the library reads different
    address and port values from the two local addresses. -/
theorem ReceiveTo_tracks_flow_by_source (l : LWIP) (lib : MetadataLib) (blib : BufLib)
    (conn : UDPConn) (data : List Byte) (addr : NetAddr)
    (hlocal : conn.LocalAddr ≠ .nilPointer) (hdata : data ≠ []) :
    (∃ call : NewPacketCall,
        l.ReceiveTo lib blib conn data (some addr) = some ([.NewPacket call], none)
        ∧ call.ctx = l.ctx
        ∧ call.key = libraryEndpoint lib conn.LocalAddr
        ∧ call.metadata.Source = lib.SocksaddrFromNet conn.LocalAddr.toOption
        ∧ call.metadata.Destination = lib.SocksaddrFromNet (some addr)
        ∧ call.buffer = data
        ∧ ∀ natConn, (call.init natConn).conn = conn)
    ∧ receivedKeys (l.ReceiveTo lib blib conn data (some addr))
        = [libraryEndpoint lib conn.LocalAddr]
    ∧ (∀ (conn₂ : UDPConn) (data₂ : List Byte) (addr₂ : NetAddr),
        conn₂.LocalAddr ≠ .nilPointer → data₂ ≠ [] →
        (conn.LocalAddr = conn₂.LocalAddr →
          receivedKeys (l.ReceiveTo lib blib conn data (some addr))
            = receivedKeys (l.ReceiveTo lib blib conn₂ data₂ (some addr₂)))
        ∧ (receivedKeys (l.ReceiveTo lib blib conn data (some addr))
            ≠ receivedKeys (l.ReceiveTo lib blib conn₂ data₂ (some addr₂))
          ↔ libraryEndpoint lib conn.LocalAddr ≠ libraryEndpoint lib conn₂.LocalAddr)) := by
  have hrun : ∀ (c : UDPConn) (d : List Byte) (a : NetAddr),
      c.LocalAddr ≠ .nilPointer → d ≠ [] →
      l.ReceiveTo lib blib c d (some a)
        = some ([.NewPacket
            { ctx := l.ctx
              key := libraryEndpoint lib c.LocalAddr
              buffer := d
              metadata := ⟨lib.SocksaddrFromNet c.LocalAddr.toOption,
                lib.SocksaddrFromNet (some a)⟩
              init := fun _ => ⟨c⟩ }], none) := by
    intro c d a hc hd
    unfold LWIP.ReceiveTo
    cases hca : c.LocalAddr with
    | nilPointer => exact absurd hca hc
    | nilInterface =>
      simp [MetadataLib.fromNet, GoAddr.ofPointer, buf_ToOwned, hd, libraryEndpoint,
        GoAddr.toOption]
    | ptr x =>
      simp [MetadataLib.fromNet, GoAddr.ofPointer, buf_ToOwned, hd, libraryEndpoint,
        GoAddr.toOption]
  have hkeys : ∀ (c : UDPConn) (d : List Byte) (a : NetAddr),
      c.LocalAddr ≠ .nilPointer → d ≠ [] →
      receivedKeys (l.ReceiveTo lib blib c d (some a)) = [libraryEndpoint lib c.LocalAddr] := by
    intro c d a hc hd
    rw [hrun c d a hc hd]
    rfl
  refine ⟨⟨_, hrun conn data addr hlocal hdata, rfl, rfl, rfl, rfl, rfl, fun _ => rfl⟩,
    hkeys conn data addr hlocal hdata, ?_⟩
  intro conn₂ data₂ addr₂ hl₂ hd₂
  rw [hkeys conn data addr hlocal hdata, hkeys conn₂ data₂ addr₂ hl₂ hd₂]
  constructor
  · intro h
    rw [h]
  · simp

/-- Witness of C6 as amended: a datagram of two bytes from `addrA` to
    `addrB`. -/
theorem ReceiveTo_tracks_flow_by_source_witness :
    receivedKeys (sampleLWIP.ReceiveTo sampleLib ⟨true⟩ (sampleUDPConn 1 (.ptr addrA))
        [1, 2] (some addrB))
      = [⟨[10, 0, 0, 1], 1000⟩] := by
  have h := (ReceiveTo_tracks_flow_by_source sampleLWIP sampleLib ⟨true⟩
    (sampleUDPConn 1 (.ptr addrA)) [1, 2] addrB (by decide) (by decide)).2.1
  rw [h]
  decide

/-- C6 as stated fails: when `addr` is a nil `*net.UDPAddr`, or the local
    address of `conn` is a nil pointer, `ReceiveTo` panics in the conversion
    of line 122 or 121 and the tracker is not called; with a buffer library
    that panics on an empty copy, so does a datagram of length zero.  And
    the code leaves it to the metadata library whether different local
    addresses get different keys: with the sample library, which reads IP and
    port only, two local addresses that differ in their zone share a key. -/
theorem ReceiveTo_nil_addr_panics :
    sampleLWIP.ReceiveTo sampleLib ⟨false⟩ (sampleUDPConn 1 (.ptr addrA)) [1, 2] none = none
    ∧ receivedKeys
        (sampleLWIP.ReceiveTo sampleLib ⟨false⟩ (sampleUDPConn 1 (.ptr addrA)) [1, 2] none) = []
    ∧ sampleLWIP.ReceiveTo sampleLib ⟨false⟩ (sampleUDPConn 1 .nilPointer) [1, 2] (some addrB)
        = none
    ∧ sampleLWIP.ReceiveTo sampleLib ⟨true⟩ (sampleUDPConn 1 (.ptr addrA)) [] (some addrB)
        = none
    ∧ (GoAddr.ptr ⟨[254, 128, 0, 1], 53, "eth0"⟩ ≠ GoAddr.ptr ⟨[254, 128, 0, 1], 53, "eth1"⟩
      ∧ receivedKeys (sampleLWIP.ReceiveTo sampleLib ⟨false⟩
            (sampleUDPConn 1 (.ptr ⟨[254, 128, 0, 1], 53, "eth0"⟩)) [1, 2] (some addrB))
          = receivedKeys (sampleLWIP.ReceiveTo sampleLib ⟨false⟩
            (sampleUDPConn 2 (.ptr ⟨[254, 128, 0, 1], 53, "eth1"⟩)) [1, 2] (some addrB))) := by
  refine ⟨rfl, rfl, rfl, rfl, by decide, rfl⟩

/-! ## Lifecycle -/

/-- C7: after the calls of `Close`, whatever was registered before, the TCP
    handler and the UDP handler are nil and the output function returns zero
    and `os.ErrClosed` for every byte slice without calling the device; the
    last call of `Close` asks the engine to close, and `Close` returns the
    result of that call.  After the calls of `Start` the output function is the
    `Write` of the device (one device write per call, same result), and both
    handlers are the bridge; `Close` after `Start` replaces all three. -/
theorem Close_unregisters_and_output_fails (l : LWIP) (r : Registry) :
    (r.run l.Close.1).tcpConnHandler.isNone = true
    ∧ (r.run l.Close.1).udpConnHandler.isNone = true
    ∧ (∃ f, (r.run l.Close.1).outputFn = some f
        ∧ ∀ bytes, (f bytes).result = (0, some os_ErrClosed) ∧ (f bytes).tunWrites = [])
    ∧ (∃ before, l.Close.1 = before ++ [EngineCall.stackClose])
    ∧ (r.run l.Close.1).closeRequests = r.closeRequests + 1
    ∧ l.Close.2 = l.stack.Close
    ∧ (∃ f, (r.run l.Start.1).outputFn = some f
        ∧ f = l.tun.WriteFn
        ∧ ∀ bytes, (f bytes).result = l.tun.Write bytes ∧ (f bytes).tunWrites = [bytes])
    ∧ (r.run l.Start.1).tcpConnHandler.isSome = true
    ∧ (r.run l.Start.1).udpConnHandler.isSome = true
    ∧ (r.run l.Start.1).pumps = r.pumps ++ [l]
    ∧ l.Start.2 = none
    ∧ (∃ f, (r.run (l.Start.1 ++ l.Close.1)).outputFn = some f
        ∧ ∀ bytes, (f bytes).result = (0, some os_ErrClosed) ∧ (f bytes).tunWrites = []) := by
  refine ⟨rfl, rfl, ⟨closedOutputFn, rfl, fun _ => ⟨rfl, rfl⟩⟩,
    ⟨[.RegisterTCPConnHandler none, .RegisterUDPConnHandler none,
      .RegisterOutputFn closedOutputFn], rfl⟩, rfl, rfl,
    ⟨l.tun.WriteFn, rfl, rfl, fun _ => ⟨rfl, rfl⟩⟩, rfl, rfl, rfl, rfl,
    ⟨closedOutputFn, rfl, fun _ => ⟨rfl, rfl⟩⟩⟩

/-! ## Construction -/

/-- C10, what the code does: `NewLWIP` returns a nil error and a bridge whose
    context, device, MTU and handler are the arguments and whose flow tracker is
    created with the `udpTimeout` argument; the `udpTimeout` field of the bridge
    is not set and is zero, whatever the argument (300 in the second part). -/
theorem NewLWIP_leaves_udpTimeout_zero (newStack : LWIPStack) (ctx : Context) (tun : Tun)
    (tunMtu : Nat) (udpTimeout : Int) (handler : Handler) :
    ((NewLWIP newStack ctx tun tunMtu udpTimeout handler).2 = none
      ∧ (NewLWIP newStack ctx tun tunMtu udpTimeout handler).1.ctx = ctx
      ∧ (NewLWIP newStack ctx tun tunMtu udpTimeout handler).1.tun = tun
      ∧ (NewLWIP newStack ctx tun tunMtu udpTimeout handler).1.tunMtu = tunMtu
      ∧ (NewLWIP newStack ctx tun tunMtu udpTimeout handler).1.handler = handler
      ∧ (NewLWIP newStack ctx tun tunMtu udpTimeout handler).1.stack = newStack
      ∧ (NewLWIP newStack ctx tun tunMtu udpTimeout handler).1.udpNat.timeout = udpTimeout
      ∧ (NewLWIP newStack ctx tun tunMtu udpTimeout handler).1.udpTimeout = 0)
    ∧ (NewLWIP newStack ctx tun tunMtu 300 handler).1.udpTimeout ≠ 300 := by
  refine ⟨⟨rfl, rfl, rfl, rfl, rfl, rfl, rfl, rfl⟩, ?_⟩
  simp [NewLWIP]

/-! ## The ingress pump -/

lemma writesOf_append (a b : List PumpEvent) : writesOf (a ++ b) = writesOf a ++ writesOf b := by
  induction a with
  | nil => rfl
  | cons x xs ih => cases x <;> simp [writesOf, ih]

lemma errorsOf_append (a b : List PumpEvent) : errorsOf (a ++ b) = errorsOf a ++ errorsOf b := by
  induction a with
  | nil => rfl
  | cons x xs ih => cases x <;> simp [errorsOf, ih]

lemma readsOf_append (a b : List PumpEvent) : readsOf (a ++ b) = readsOf a + readsOf b := by
  induction a with
  | nil => simp [readsOf]
  | cons x xs ih =>
    cases x <;> simp [readsOf, ih]
    omega

lemma writesOf_iterCalls (l : LWIP) (goos : String) (i : Nat) (packet : List Byte) :
    writesOf (l.iterCalls goos i packet) = [packet] := by
  unfold LWIP.iterCalls
  cases (l.stack.Write i packet).2 <;> simp [writesOf]

lemma readsOf_iterCalls (l : LWIP) (goos : String) (i : Nat) (packet : List Byte) :
    readsOf (l.iterCalls goos i packet) = 1 := by
  unfold LWIP.iterCalls
  cases (l.stack.Write i packet).2 <;> simp [readsOf]

lemma errorsOf_iterCalls (l : LWIP) (goos : String) (i : Nat) (packet : List Byte) :
    errorsOf (l.iterCalls goos i packet) = ((l.stack.Write i packet).2).toList := by
  unfold LWIP.iterCalls
  cases (l.stack.Write i packet).2 <;> simp [errorsOf]

lemma writesOf_callsFrom (l : LWIP) (goos : String) (p : Nat → List Byte) (d : Nat) :
    ∀ j, writesOf (l.callsFrom goos p j d) = (List.range' j d).map p := by
  induction d with
  | zero => intro j; rfl
  | succ d ih =>
    intro j
    simp [LWIP.callsFrom, writesOf_append, writesOf_iterCalls, ih, List.range'_succ]

lemma readsOf_callsFrom (l : LWIP) (goos : String) (p : Nat → List Byte) (d : Nat) :
    ∀ j, readsOf (l.callsFrom goos p j d) = d := by
  induction d with
  | zero => intro j; rfl
  | succ d ih =>
    intro j
    simp [LWIP.callsFrom, readsOf_append, readsOf_iterCalls, ih]
    omega

lemma errorsOf_callsFrom (l : LWIP) (goos : String) (p : Nat → List Byte) (d : Nat) :
    ∀ j, errorsOf (l.callsFrom goos p j d)
      = (List.range' j d).filterMap (fun i => (l.stack.Write i (p i)).2) := by
  induction d with
  | zero => intro j; rfl
  | succ d ih =>
    intro j
    simp only [LWIP.callsFrom, errorsOf_append, errorsOf_iterCalls, ih, List.range'_succ,
      List.filterMap_cons]
    cases (l.stack.Write j (p j)).2 <;> simp

/-- One iteration that hands its packet to the engine and goes on. -/
lemma loopBody_continue (l : LWIP) (goos : String) (fuel i : Nat) (data : List Byte) (n : Int)
    (packet : List Byte)
    (hr : l.tun.Read i = .ok data n)
    (hp : packetOf goos (bufferAfter (l.bufferLen goos) data) n = some packet)
    (hw : ∀ e, (l.stack.Write i packet).2 = some e → e.Error ≠ "stack closed") :
    l.loopBody goos (fuel + 1) i
      = ⟨l.iterCalls goos i packet ++ (l.loopBody goos fuel (i + 1)).trace,
         (l.loopBody goos fuel (i + 1)).outcome⟩ := by
  rw [LWIP.loopBody]
  simp only [hr, hp, LWIP.iterCalls]
  cases hres : (l.stack.Write i packet).2 with
  | none => simp
  | some e => simp [hw e hres]

/-- The run through `d` iterations that each hand a packet to the engine
    and go on. -/
lemma loopBody_progress (l : LWIP) (goos : String) (p : Nat → List Byte) (d : Nat) :
    ∀ (j fuel : Nat),
      (∀ i, j ≤ i → i < j + d → ∃ data n, l.tun.Read i = .ok data n
          ∧ packetOf goos (bufferAfter (l.bufferLen goos) data) n = some (p i)) →
      (∀ i, j ≤ i → i < j + d → ∀ e, (l.stack.Write i (p i)).2 = some e →
          e.Error ≠ "stack closed") →
      l.loopBody goos (d + fuel) j
        = ⟨l.callsFrom goos p j d ++ (l.loopBody goos fuel (j + d)).trace,
           (l.loopBody goos fuel (j + d)).outcome⟩ := by
  induction d with
  | zero =>
    intro j fuel _ _
    simp [LWIP.callsFrom]
  | succ d ih =>
    intro j fuel hread hwrite
    obtain ⟨data, n, hr, hp⟩ := hread j (le_refl j) (by omega)
    have hfuel : d + 1 + fuel = (d + fuel) + 1 := by omega
    rw [hfuel, loopBody_continue l goos (d + fuel) j data n (p j) hr hp
      (hwrite j (le_refl j) (by omega))]
    rw [ih (j + 1) fuel (fun i h1 h2 => hread i (by omega) (by omega))
      (fun i h1 h2 => hwrite i (by omega) (by omega))]
    have hidx : j + 1 + d = j + (d + 1) := by omega
    simp [LWIP.callsFrom, hidx]

/-- The deferred release of `loopIn` after a loop that has ended. -/
lemma loopIn_of_ended (l : LWIP) (goos : String) (fuel : Nat) (t : List PumpEvent) (o : Outcome)
    (h : l.loopBody goos fuel 0 = ⟨t, o⟩) (ho : o ≠ .running) :
    l.loopIn goos fuel = ⟨t ++ [.bufferRelease], o⟩ := by
  unfold LWIP.loopIn
  rw [h]
  cases o <;> simp at ho ⊢

lemma length_bufferAfter (size : Nat) (data : List Byte) :
    (bufferAfter size data).length = size := by
  unfold bufferAfter
  simp
  omega

/-- C5: in a run of `loopIn` made of `k` successful device reads, each
    handing its packet `p i` to the engine, followed by a failing read, with no
    engine write reporting "stack closed": the pump returns because of the read
    error; the engine receives exactly the `k` packets, in read order; the
    error sink receives exactly the errors of the failing engine writes, in
    order (a failing write does not stop the pump, and the read error is not
    reported); the failing read is read number `k + 1` and the last call before
    the deferred buffer release.  This holds for every observation of at least
    `k + 1` iterations. -/
theorem loopIn_delivers_in_order_until_read_error (l : LWIP) (goos : String) (k : Nat)
    (p : Nat → List Byte)
    (hread : ∀ i, i < k → ∃ data n, l.tun.Read i = .ok data n
        ∧ packetOf goos (bufferAfter (l.bufferLen goos) data) n = some (p i))
    (hopen : ∀ i, i < k → ∀ e, (l.stack.Write i (p i)).2 = some e → e.Error ≠ "stack closed")
    (hfail : ∃ e, l.tun.Read k = .err e)
    (fuel : Nat) (hfuel : k + 1 ≤ fuel) :
    (l.loopIn goos fuel).outcome = .readError
    ∧ writesOf (l.loopIn goos fuel).trace = (List.range k).map p
    ∧ (writesOf (l.loopIn goos fuel).trace).length = k
    ∧ errorsOf (l.loopIn goos fuel).trace
        = (List.range k).filterMap (fun i => (l.stack.Write i (p i)).2)
    ∧ readsOf (l.loopIn goos fuel).trace = k + 1
    ∧ ∃ body, (l.loopIn goos fuel).trace
          = body ++ [.tunRead (l.bufferLen goos), .bufferRelease]
        ∧ readsOf body = k
        ∧ writesOf body = (List.range k).map p
        ∧ errorsOf body = (List.range k).filterMap (fun i => (l.stack.Write i (p i)).2) := by
  obtain ⟨e, he⟩ := hfail
  obtain ⟨f, rfl⟩ : ∃ f, fuel = k + (f + 1) := ⟨fuel - k - 1, by omega⟩
  have hloop : l.loopBody goos (k + (f + 1)) 0
      = ⟨l.callsFrom goos p 0 k ++ [.tunRead (l.bufferLen goos)], .readError⟩ := by
    rw [loopBody_progress l goos p k 0 (f + 1)
      (fun i _ h2 => hread i (by omega)) (fun i _ h2 => hopen i (by omega))]
    rw [LWIP.loopBody]
    simp [he]
  have hrun := loopIn_of_ended l goos _ _ _ hloop (by decide)
  have hw := writesOf_callsFrom l goos p k 0
  have hr := readsOf_callsFrom l goos p k 0
  have herr := errorsOf_callsFrom l goos p k 0
  rw [← List.range_eq_range'] at hw herr
  rw [hrun]
  refine ⟨rfl, ?_, ?_, ?_, ?_, ⟨l.callsFrom goos p 0 k, by simp, hr, hw, herr⟩⟩
  · simp [writesOf_append, hw, writesOf]
  · simp [writesOf_append, hw, writesOf]
  · simp [errorsOf_append, herr, errorsOf]
  · simp [readsOf_append, hr, readsOf]

/-- Witness of C5: three packets of five bytes and then a failing read, on
    an engine that rejects the second packet. -/
theorem loopIn_delivers_in_order_until_read_error_witness :
    ((pumpLWIP threePacketTun lossyStack).loopIn "linux" 4).outcome = .readError
    ∧ writesOf ((pumpLWIP threePacketTun lossyStack).loopIn "linux" 4).trace
        = [[9, 9, 9, 9, 0], [9, 9, 9, 9, 1], [9, 9, 9, 9, 2]]
    ∧ errorsOf ((pumpLWIP threePacketTun lossyStack).loopIn "linux" 4).trace
        = [⟨"bad packet"⟩]
    ∧ readsOf ((pumpLWIP threePacketTun lossyStack).loopIn "linux" 4).trace = 4 := by
  have h := loopIn_delivers_in_order_until_read_error (pumpLWIP threePacketTun lossyStack)
    "linux" 3 (fun i => [9, 9, 9, 9, Fin.ofNat i])
    (by
      intro i hi
      refine ⟨[9, 9, 9, 9, Fin.ofNat i], 5, ?_, ?_⟩
      · simp [pumpLWIP, NewLWIP, threePacketTun, hi]
      · interval_cases i <;> decide)
    (by
      intro i hi e he
      interval_cases i <;> simp [pumpLWIP, NewLWIP, lossyStack] at he <;> subst he <;> decide)
    ⟨⟨"device gone"⟩, rfl⟩ 4 (le_refl 4)
  refine ⟨h.1, ?_, ?_, h.2.2.2.2.1⟩
  · rw [h.2.1]
    decide
  · rw [h.2.2.2.1]
    decide

/-- C4: in a run of `loopIn` whose first `k` iterations (`k ≥ 1`) each read
    successfully and hand their packet `p i` to the engine, and in which the
    engine write of iteration `k` is the first to report "stack closed": the
    pump returns after that iteration, having made exactly `k` device reads
    and `k` engine writes; the write of iteration `k` is its last call before
    the deferred buffer release; the error sink never receives an error with
    the message "stack closed" (it receives the other errors of the earlier
    writes).  This holds for every observation of at least `k` iterations. -/
theorem loopIn_exits_silently_on_stack_closed (l : LWIP) (goos : String) (k : Nat)
    (p : Nat → List Byte) (hk : 1 ≤ k)
    (hread : ∀ i, i < k → ∃ data n, l.tun.Read i = .ok data n
        ∧ packetOf goos (bufferAfter (l.bufferLen goos) data) n = some (p i))
    (hopen : ∀ i, i + 1 < k → ∀ e, (l.stack.Write i (p i)).2 = some e →
        e.Error ≠ "stack closed")
    (hclosed : ∃ e, (l.stack.Write (k - 1) (p (k - 1))).2 = some e ∧ e.Error = "stack closed")
    (fuel : Nat) (hfuel : k ≤ fuel) :
    (l.loopIn goos fuel).outcome = .stackClosed
    ∧ readsOf (l.loopIn goos fuel).trace = k
    ∧ writesOf (l.loopIn goos fuel).trace = (List.range k).map p
    ∧ (writesOf (l.loopIn goos fuel).trace).length = k
    ∧ (∀ e, e ∈ errorsOf (l.loopIn goos fuel).trace → e.Error ≠ "stack closed")
    ∧ errorsOf (l.loopIn goos fuel).trace
        = (List.range (k - 1)).filterMap (fun i => (l.stack.Write i (p i)).2)
    ∧ ∃ body, (l.loopIn goos fuel).trace
          = body ++ [.tunRead (l.bufferLen goos), .stackWrite (p (k - 1)), .bufferRelease]
        ∧ readsOf body = k - 1 := by
  obtain ⟨d, rfl⟩ : ∃ d, k = d + 1 := ⟨k - 1, by omega⟩
  obtain ⟨f, rfl⟩ : ∃ f, fuel = d + (f + 1) := ⟨fuel - d - 1, by omega⟩
  obtain ⟨e, he, hmsg⟩ := hclosed
  simp only [Nat.add_sub_cancel] at he ⊢
  obtain ⟨data, n, hr, hp⟩ := hread d (by omega)
  have hloop : l.loopBody goos (d + (f + 1)) 0
      = ⟨l.callsFrom goos p 0 d ++ [.tunRead (l.bufferLen goos), .stackWrite (p d)],
         .stackClosed⟩ := by
    rw [loopBody_progress l goos p d 0 (f + 1)
      (fun i _ h2 => hread i (by omega)) (fun i _ h2 => hopen i (by omega))]
    rw [LWIP.loopBody]
    simp [hr, hp, he, hmsg]
  have hrun := loopIn_of_ended l goos _ _ _ hloop (by decide)
  have hw := writesOf_callsFrom l goos p d 0
  have hrd := readsOf_callsFrom l goos p d 0
  have herr := errorsOf_callsFrom l goos p d 0
  rw [← List.range_eq_range'] at hw herr
  have herrs : errorsOf (l.loopIn goos (d + (f + 1))).trace
      = (List.range d).filterMap (fun i => (l.stack.Write i (p i)).2) := by
    rw [hrun]
    simp [errorsOf_append, herr, errorsOf]
  have hws : writesOf (l.loopIn goos (d + (f + 1))).trace = (List.range (d + 1)).map p := by
    rw [hrun]
    simp [writesOf_append, hw, writesOf, List.range_succ]
  refine ⟨?_, ?_, hws, ?_, ?_, herrs, ⟨l.callsFrom goos p 0 d, ?_, hrd⟩⟩
  · rw [hrun]
  · rw [hrun]
    simp [readsOf_append, hrd, readsOf]
  · rw [hws]
    simp
  · intro e1 he1
    rw [herrs, List.mem_filterMap] at he1
    obtain ⟨i, hi, hi2⟩ := he1
    exact hopen i (by simpa using hi) e1 hi2
  · rw [hrun]
    simp

/-- Witness of C4, the scenario of the specification: the engine reports
    "stack closed" on the fifth iteration, after rejecting the second and the
    fourth packet. -/
theorem loopIn_exits_silently_on_stack_closed_witness :
    ((pumpLWIP sampleTun closingStack).loopIn "linux" 5).outcome = .stackClosed
    ∧ readsOf ((pumpLWIP sampleTun closingStack).loopIn "linux" 5).trace = 5
    ∧ (writesOf ((pumpLWIP sampleTun closingStack).loopIn "linux" 5).trace).length = 5
    ∧ errorsOf ((pumpLWIP sampleTun closingStack).loopIn "linux" 5).trace
        = [⟨"bad packet"⟩, ⟨"bad packet"⟩] := by
  have h := loopIn_exits_silently_on_stack_closed (pumpLWIP sampleTun closingStack)
    "linux" 5 (fun _ => [1, 2, 3]) (by decide)
    (by
      intro i _
      have hp : packetOf "linux"
          (bufferAfter ((pumpLWIP sampleTun closingStack).bufferLen "linux") [1, 2, 3]) 3
          = some [1, 2, 3] := by decide
      exact ⟨[1, 2, 3], 3, rfl, hp⟩)
    (by
      intro i hi e he
      have hi4 : i < 4 := by omega
      interval_cases i <;> simp [pumpLWIP, NewLWIP, closingStack] at he <;> subst he <;> decide)
    ⟨⟨"stack closed"⟩, by decide, rfl⟩ 5 (le_refl 5)
  refine ⟨h.1, h.2.1, h.2.2.2.1, ?_⟩
  rw [h.2.2.2.2.2.1]
  decide

/-! ## Framing -/

/-- C9, as the code has it: a read that reports `n` bytes with `n` at most the
    buffer length and at least the platform header (4 on darwin, 0 elsewhere)
    has its slice expression in range; the packet is the bytes [4, n) of the
    buffer on darwin (length n - 4) and the bytes [0, n) elsewhere (length n),
    and an iteration of the pump with that read hands exactly this packet to
    the engine without panic.  The buffer length is MTU + 4 on darwin and MTU
    elsewhere.  Nothing is said of a darwin read of fewer than four bytes. -/
theorem packetOf_strips_platform_header (l : LWIP) (goos : String) (data : List Byte) (n : Int)
    (hlo : if goos = "darwin" then 4 ≤ n else 0 ≤ n)
    (hhi : n ≤ (l.bufferLen goos : Int)) :
    (goos = "darwin" →
        packetOf goos (bufferAfter (l.bufferLen goos) data) n
          = some (((bufferAfter (l.bufferLen goos) data).take n.toNat).drop 4)
        ∧ ((((bufferAfter (l.bufferLen goos) data).take n.toNat).drop 4).length : Int) = n - 4
        ∧ l.bufferLen goos = l.tunMtu + 4)
    ∧ (goos ≠ "darwin" →
        packetOf goos (bufferAfter (l.bufferLen goos) data) n
          = some ((bufferAfter (l.bufferLen goos) data).take n.toNat)
        ∧ (((bufferAfter (l.bufferLen goos) data).take n.toNat).length : Int) = n
        ∧ l.bufferLen goos = l.tunMtu)
    ∧ (∃ packet, packetOf goos (bufferAfter (l.bufferLen goos) data) n = some packet
        ∧ ∀ i, l.tun.Read i = .ok data n →
            (l.loopBody goos 1 i).outcome ≠ .panicked
            ∧ writesOf (l.loopBody goos 1 i).trace = [packet]) := by
  have hlen := length_bufferAfter (l.bufferLen goos) data
  have hstep : ∀ packet, packetOf goos (bufferAfter (l.bufferLen goos) data) n = some packet →
      ∀ i, l.tun.Read i = .ok data n →
        (l.loopBody goos 1 i).outcome ≠ .panicked
        ∧ writesOf (l.loopBody goos 1 i).trace = [packet] := by
    intro packet hp i hr
    rw [LWIP.loopBody]
    simp only [hr, hp]
    cases (l.stack.Write i packet).2 with
    | none => simp [LWIP.loopBody, writesOf]
    | some e =>
      by_cases hm : e.Error = "stack closed"
      · simp [hm, writesOf]
      · simp [hm, LWIP.loopBody, writesOf]
  by_cases hd : goos = "darwin"
  · simp only [hd, if_true] at hlo
    have hpk : packetOf goos (bufferAfter (l.bufferLen goos) data) n
          = some (((bufferAfter (l.bufferLen goos) data).take n.toNat).drop 4) := by
      unfold packetOf sliceExpr
      rw [if_pos hd, if_pos ⟨by omega, hlo, by rw [hlen]; exact hhi⟩]
      rfl
    refine ⟨fun _ => ⟨hpk, ?_, by simp [LWIP.bufferLen, hd]⟩, fun h => absurd hd h,
      ⟨_, hpk, hstep _ hpk⟩⟩
    rw [List.length_drop, List.length_take, hlen]
    omega
  · simp only [hd, if_false] at hlo
    have hpk : packetOf goos (bufferAfter (l.bufferLen goos) data) n
          = some ((bufferAfter (l.bufferLen goos) data).take n.toNat) := by
      unfold packetOf sliceExpr
      rw [if_neg hd, if_pos ⟨le_refl 0, hlo, by rw [hlen]; exact hhi⟩]
      simp
    refine ⟨fun h => absurd h hd, fun _ => ⟨hpk, ?_, by simp [LWIP.bufferLen, hd]⟩,
      ⟨_, hpk, hstep _ hpk⟩⟩
    rw [List.length_take, hlen]
    omega

/-- Witness of C9 as amended: a darwin read of six bytes into a buffer of
    twelve; the packet is the last two bytes read. -/
theorem packetOf_strips_platform_header_witness :
    packetOf "darwin" (bufferAfter ((pumpLWIP sampleTun sampleStack).bufferLen "darwin")
        [0, 0, 0, 2, 69, 70]) 6
      = some [69, 70] := by
  have h := (packetOf_strips_platform_header (pumpLWIP sampleTun sampleStack) "darwin"
    [0, 0, 0, 2, 69, 70] 6 (by decide) (by decide)).1 rfl
  rw [h.1]
  decide

/-- C9 as stated fails: on darwin a successful read that reports two bytes
    (within 0 and the buffer length, 12) makes the slice expression
    `data[4:2]` panic, and the pump ends in that panic without any engine
    write. -/
theorem packetOf_short_read_on_darwin_out_of_range :
    (0 : Int) ≤ 2
    ∧ (2 : Int) ≤ ((pumpLWIP shortReadTun sampleStack).bufferLen "darwin" : Int)
    ∧ (pumpLWIP shortReadTun sampleStack).tun.Read 0 = .ok [1, 2] 2
    ∧ packetOf "darwin"
        (bufferAfter ((pumpLWIP shortReadTun sampleStack).bufferLen "darwin") [1, 2]) 2 = none
    ∧ ((pumpLWIP shortReadTun sampleStack).loopIn "darwin" 1).outcome = .panicked
    ∧ writesOf ((pumpLWIP shortReadTun sampleStack).loopIn "darwin" 1).trace = [] := by
  decide

end SingTun
